import Mathlib

/-!
Shallow embedding of `dingo/gw/SVD.py`.

Scalars: numpy `complex128` values are modelled as Gaussian rationals
(pairs of rationals), an exact stand-in for complex floating point.
Matrices: a numpy 2D array is modelled as a shape together with an entry
function; slicing clamps like numpy slicing does.

The two external factorization routines (`scipy.linalg.svd` and
`sklearn.utils.extmath.randomized_svd`) are not part of this repository:
they enter the embedding as oracle parameters, with their documented
output-shape contracts taken as hypotheses where a claim needs them.
-/

namespace DingoSVD

/-- Exact complex scalar: a Gaussian rational standing in for `complex128`. -/
structure CC where
  re : ℚ
  im : ℚ
deriving DecidableEq, Repr

/-- Complex addition. -/
def CC.add (x y : CC) : CC := ⟨x.re + y.re, x.im + y.im⟩

/-- Complex subtraction. -/
def CC.sub (x y : CC) : CC := ⟨x.re - y.re, x.im - y.im⟩

/-- Complex multiplication. -/
def CC.mul (x y : CC) : CC := ⟨x.re * y.re - x.im * y.im, x.re * y.im + x.im * y.re⟩

/-- Complex conjugate (numpy `.conj()`). -/
def CC.conj (x : CC) : CC := ⟨x.re, -x.im⟩

/-- Squared modulus `|x|^2` (numpy `np.abs(x) ** 2` for complex input). -/
def CC.abs2 (x : CC) : ℚ := x.re * x.re + x.im * x.im

/-- The zero scalar. -/
def CC.zero : CC := ⟨0, 0⟩

theorem CC.conj_conj (x : CC) : x.conj.conj = x := by
  cases x; simp [CC.conj]

/-- A numpy 2D array: a shape together with an entry function.
Entries outside the shape are irrelevant junk, as in a numpy view. -/
structure Mat where
  rows : Nat
  cols : Nat
  entry : Nat → Nat → CC

/-- numpy `len(A)` for a 2D array: the first dimension. -/
def Mat.len (A : Mat) : Nat := A.rows

/-- Conjugate transpose, numpy `A.T.conj()`. -/
def Mat.conjT (A : Mat) : Mat :=
  ⟨A.cols, A.rows, fun i j => (A.entry j i).conj⟩

/-- numpy column slice `A[:, :n]`; like numpy, clamps `n` to the width. -/
def Mat.takeCols (A : Mat) (n : Nat) : Mat :=
  ⟨A.rows, min n A.cols, A.entry⟩

/-- numpy row slice `A[:n]` (equivalently `A[:n, :]`); clamps like numpy. -/
def Mat.takeRows (A : Mat) (n : Nat) : Mat :=
  ⟨min n A.rows, A.cols, A.entry⟩

/-- numpy row slice `A[n:]`: drop the first `n` rows. -/
def Mat.dropRows (A : Mat) (n : Nat) : Mat :=
  ⟨A.rows - n, A.cols, fun i j => A.entry (n + i) j⟩

/-- Sum of `f 0 + f 1 + ... + f (n-1)`. -/
def sumTo (f : Nat → CC) : Nat → CC
  | 0 => CC.zero
  | n + 1 => (sumTo f n).add (f n)

/-- Matrix product `A @ B` (shapes assumed compatible, as numpy requires). -/
def Mat.matMul (A B : Mat) : Mat :=
  ⟨A.rows, B.cols, fun i j => sumTo (fun l => (A.entry i l).mul (B.entry l j)) B.rows⟩

/-- Pointwise matrix equality on the common shape. -/
def Mat.Eqv (A B : Mat) : Prop :=
  A.rows = B.rows ∧ A.cols = B.cols ∧
    ∀ i < A.rows, ∀ j < A.cols, A.entry i j = B.entry i j

instance (A B : Mat) : Decidable (A.Eqv B) := by
  unfold Mat.Eqv; infer_instance

theorem Mat.Eqv.refl (A : Mat) : A.Eqv A :=
  ⟨rfl, rfl, fun _ _ _ _ => rfl⟩

/-- The attribute state of an `SVDBasis` object: each field is `none`
while the corresponding Python attribute is `None` or unset. -/
structure SVDBasis where
  V : Option Mat
  Vh : Option Mat
  n : Option Nat
  s : Option (List ℚ)

/-- Model of `SVDBasis.__init__`: sets `V`, `Vh`, `n` to `None`; the attribute
`s` is not created at all (modelled as `none` alongside the `None` fields). -/
def SVDBasis.init : SVDBasis := ⟨none, none, none, none⟩

/-- Python exceptions that the modelled code can raise or propagate. -/
inductive PyErr where
  | valueError (msg : String)
  | loaderFailure
  | broadcastError
deriving DecidableEq, Repr

/-- Result triple `(U, s, Vh)` of an external SVD routine. -/
structure SVDOut where
  U : Mat
  s : List ℚ
  Vh : Mat

/-- Model of `Vh.astype(np.complex128)`: a dtype cast.  Over the exact
complex scalars of this embedding the values are unchanged. -/
def astypeComplex (A : Mat) : Mat := ⟨A.rows, A.cols, A.entry⟩

/-- Model of `SVDBasis.generate_basis(training_data, n, method)`.

The external factorizations are passed in as oracles:
`rsvd training_data n_components random_state` models
`sklearn.utils.extmath.randomized_svd`, and `scipySvd training_data`
models `scipy.linalg.svd(training_data, full_matrices=False)`.
An unsupported method raises `ValueError`, modelled as `Except.error`. -/
def generate_basis (rsvd : Mat → Nat → Nat → SVDOut) (scipySvd : Mat → SVDOut)
    (training_data : Mat) (n : Nat) (method : String) : Except PyErr SVDBasis :=
  if method = "random" then
    let n := if n = 0 then min training_data.rows training_data.cols else n
    let out := rsvd training_data n 0
    .ok { V := some (astypeComplex out.Vh).conjT
          Vh := some (astypeComplex out.Vh)
          n := some n
          s := some out.s }
  else if method = "scipy" then
    let out := scipySvd training_data
    let V := out.Vh.conjT
    let kept : Mat × Mat :=
      if n = 0 ∨ n > V.len then (V, out.Vh)
      else (V.takeCols n, out.Vh.takeRows n)
    .ok { V := some kept.1
          Vh := some kept.2
          n := some kept.2.len
          s := some out.s }
  else
    .error (.valueError ("Unsupported SVD method: " ++ method ++ "."))

/-- Model of `SVDBasis.from_file` after `np.load` has produced the array
`content`: sets `V`, derives `Vh` and `n`; the attribute `s` is not touched. -/
def from_file (b : SVDBasis) (content : Mat) : SVDBasis :=
  { V := some content, Vh := some content.conjT, n := some content.cols, s := b.s }

/-- Model of `SVDBasis.from_V`: same derivation from an in-memory matrix. -/
def from_V (b : SVDBasis) (V : Mat) : SVDBasis :=
  { V := some V, Vh := some V.conjT, n := some V.cols, s := b.s }

/-! Vectors: a numpy 1D array is a length together with an entry function.
Binary pointwise operations take the length from their first operand;
numpy raises on a genuine length mismatch, and every call modelled here
has matching lengths. -/

/-- A numpy 1D array. -/
structure Vec where
  len : Nat
  entry : Nat → CC

/-- Row `i` of a matrix, as the 1D array numpy iteration yields. -/
def Mat.row (A : Mat) (i : Nat) : Vec := ⟨A.cols, A.entry i⟩

/-- Vector-matrix product `v @ M` (numpy contracts over `M`'s rows). -/
def Vec.vecMatMul (v : Vec) (M : Mat) : Vec :=
  ⟨M.cols, fun j => sumTo (fun l => (v.entry l).mul (M.entry l j)) M.rows⟩

/-- Pointwise complex product `u * v`. -/
def Vec.mulV (u v : Vec) : Vec := ⟨u.len, fun i => (u.entry i).mul (v.entry i)⟩

/-- Pointwise difference `u - v`. -/
def Vec.subV (u v : Vec) : Vec := ⟨u.len, fun i => (u.entry i).sub (v.entry i)⟩

/-- Pointwise conjugate, numpy `v.conj()`. -/
def Vec.conjV (v : Vec) : Vec := ⟨v.len, fun i => (v.entry i).conj⟩

/-- Sum of the rationals `f 0 + ... + f (n-1)`. -/
def sumQ (f : Nat → ℚ) : Nat → ℚ
  | 0 => 0
  | n + 1 => sumQ f n + f n

/-- Maximum of `f 0, ..., f (n-1)` (numpy `np.max`; `0` on the empty
array, where numpy would raise). -/
def maxQ (f : Nat → ℚ) : Nat → ℚ
  | 0 => 0
  | 1 => f 0
  | n + 2 => max (maxQ f (n + 1)) (f (n + 1))

/-- Mean of a real-valued function over a vector's indices (numpy `np.mean`
of a real array). -/
def meanQ (f : Nat → ℚ) (len : Nat) : ℚ := sumQ f len / len

/-- Mean of a complex vector, numpy `np.mean` of a complex array. -/
def Vec.meanC (v : Vec) : CC :=
  ⟨meanQ (fun i => (v.entry i).re) v.len, meanQ (fun i => (v.entry i).im) v.len⟩

/-- Statistics record built by `test_basis`: the `test_stats` dict.  The
two inner dicts are association lists in insertion order. -/
structure TestStats where
  s : Option (List ℚ)
  mismatches : List (Nat × List ℚ)
  max_deviations : List (Nat × List ℚ)

/-- Body of the inner loop of `test_basis` at one test row `h`: the
appended pair `(match, max_deviation)`.  `sqrt` is the `np.sqrt` oracle. -/
def testRow (sqrt : ℚ → ℚ) (V Vh : Mat) (n : Nat) (h : Vec) : ℚ × ℚ :=
  let h_RB := h.vecMatMul (V.takeCols n)
  let h_reconstructed := h_RB.vecMatMul (Vh.takeRows n)
  let norm1 := meanQ (fun i => (h.entry i).abs2) h.len
  let norm2 := meanQ (fun i => (h_reconstructed.entry i).abs2) h_reconstructed.len
  let inner := (h.conjV.mulV h_reconstructed).meanC.re
  (inner / sqrt (norm1 * norm2),
   maxQ (fun i => sqrt ((h.subV h_reconstructed).entry i).abs2) h.len)

/-- One iteration of the `for n in n_values` loop of `test_basis`:
skip `n` above the fitted rank, otherwise compute the per-sample match
and max-deviation lists, negate matches to mismatches, update both dicts. -/
def test_basis_step (sqrt : ℚ → ℚ) (V Vh : Mat) (nfit : Nat) (test_data : Mat)
    (stats : TestStats) (n : Nat) : TestStats :=
  if n > nfit then stats
  else
    let results := (List.range test_data.rows).map
      (fun i => testRow sqrt V Vh n (test_data.row i))
    let mismatches := results.map (fun r => 1 - r.1)
    let max_deviations := results.map (fun r => r.2)
    { stats with
      mismatches := stats.mismatches ++ [(n, mismatches)]
      max_deviations := stats.max_deviations ++ [(n, max_deviations)] }

/-- Model of `SVDBasis.test_basis` on the fields of a fitted basis.
Printing of summary statistics is omitted (pure output). -/
def test_basis (sqrt : ℚ → ℚ) (V Vh : Mat) (nfit : Nat) (s : List ℚ)
    (test_data : Mat) (n_values : List Nat) : TestStats :=
  n_values.foldl (test_basis_step sqrt V Vh nfit test_data)
    { s := some s, mismatches := [], max_deviations := [] }

/-- Default `n_values` of `test_basis`. -/
def default_n_values : List Nat := [50, 100, 128, 200, 300, 500, 600]

/-- Guarded call `basis.test_basis(...)` on a possibly-unfitted object:
`none` when a needed attribute is missing (Python would raise). -/
def test_basis_obj (sqrt : ℚ → ℚ) (b : SVDBasis) (test_data : Mat)
    (n_values : List Nat) : Option TestStats :=
  match b.V, b.Vh, b.n, b.s with
  | some V, some Vh, some nfit, some s =>
      some (test_basis sqrt V Vh nfit s test_data n_values)
  | _, _, _, _ => none

/-! File storage: `.npy` files as a name-to-content association list. -/

/-- Content of one saved `.npy` file. -/
inductive FileVal where
  | varr (V : Mat)
  | sarr (s : Option (List ℚ))
  | statsRec (t : TestStats)

/-- A directory of saved files, most recent write first. -/
abbrev FileStore := List (String × FileVal)

/-- Model of `SVDBasis.to_file`: `np.save` of `V`, a no-op when `V` is
`None`. -/
def to_file (b : SVDBasis) (filename : String) (fs : FileStore) : FileStore :=
  match b.V with
  | some V => (filename, FileVal.varr V) :: fs
  | none => fs

/-- Model of `np.load` of a saved basis matrix. -/
def np_load (fs : FileStore) (filename : String) : Option Mat :=
  match List.lookup filename fs with
  | some (FileVal.varr V) => some V
  | _ => none

/-- Model of `SVDBasis.from_file` including the `np.load` read. -/
def from_file_fs (b : SVDBasis) (filename : String) (fs : FileStore) :
    Option SVDBasis :=
  (np_load fs filename).map (from_file b)

/-! Transform adapters. -/

/-- Model of `SVDBasis.fseries_to_basis_coefficients`: `fseries @ self.V`
(`none` when the basis is unfitted, where Python would raise). -/
def fseries_to_basis_coefficients (b : SVDBasis) (fseries : Mat) : Option Mat :=
  b.V.map (fun V => fseries.matMul V)

/-- Model of `SVDBasis.basis_coefficients_to_fseries`: `coefficients @ self.Vh`. -/
def basis_coefficients_to_fseries (b : SVDBasis) (coefficients : Mat) : Option Mat :=
  b.Vh.map (fun Vh => coefficients.matMul Vh)

/-- Model of `ApplySVD.__call__`: compress each channel of the dict. -/
def applySVD (b : SVDBasis) (waveform : List (String × Mat)) :
    Option (List (String × Mat)) :=
  waveform.mapM (fun p => (fseries_to_basis_coefficients b p.2).map (fun m => (p.1, m)))

/-- Model of `UndoSVD.__call__`: decompress each channel of the dict. -/
def undoSVD (b : SVDBasis) (waveform : List (String × Mat)) :
    Option (List (String × Mat)) :=
  waveform.mapM (fun p => (basis_coefficients_to_fseries b p.2).map (fun m => (p.1, m)))

/-! Builder: `generate_and_save_reduced_basis`.  The waveform dataset and
its `DataLoader` are external collaborators; they enter the model as the
probed channel list `ifos`, the probed signal length `M`, and the batch
stream `batches` (an element is `Except.error` when iterating the loader
raises).  The waveform dataset object itself is modelled by the one piece
of its state the builder touches: the composed transform list. -/

/-- The waveform dataset state seen by the builder: `wfd.transform` is the
list of type tags of the transforms inside the `Compose`. -/
structure WFD where
  transform : List Nat

/-- Copy `strain_data[k][:n]` into `buf[lower:lower+n]` for one channel.
Like numpy slice assignment this broadcasts a single row and raises on any
other row-count mismatch. -/
def copyChannel (buf : Mat) (lower n : Nat) (b : Mat) : Except PyErr Mat :=
  let m := min b.rows n
  if m = n ∨ m = 1 then
    .ok ⟨buf.rows, buf.cols, fun i j =>
      if lower ≤ i ∧ i < lower + n then b.entry (if m = 1 then 0 else i - lower) j
      else buf.entry i j⟩
  else .error .broadcastError

/-- Inner loop `for k in rb_train_data.keys()` of one batch copy. -/
def copyAll (ifos : List String) (bufs : String → Mat) (lower n : Nat)
    (batch : String → Mat) : Except PyErr (String → Mat) :=
  match ifos with
  | [] => .ok bufs
  | k :: rest =>
      match copyChannel (bufs k) lower n (batch k) with
      | .error e => .error e
      | .ok bk => copyAll rest (fun k2 => if k2 = k then bk else bufs k2) lower n batch

/-- The collection loop `for idx, data in enumerate(rb_loader)`.  Returns
the buffers and, as an observation, the number of leading rows actually
written into each buffer (the remainder still holds `np.empty` junk).
When the loader is exhausted before `N` rows arrive the loop just ends. -/
def collectLoop (ifos : List String) (bs N : Nat) (bufs : String → Mat)
    (idx : Nat) : List (Except PyErr (String → Mat)) →
    Except PyErr ((String → Mat) × Nat)
  | [] => .ok (bufs, min (idx * bs) N)
  | b? :: rest =>
      match b? with
      | .error e => .error e
      | .ok batch =>
          let lower := idx * bs
          let n := min bs (N - lower)
          match copyAll ifos bufs lower n batch with
          | .error e => .error e
          | .ok bufs' =>
              if lower + n = N then .ok (bufs', N)
              else collectLoop ifos bs N bufs' (idx + 1) rest

/-- The fit loop: one `SVDBasis.generate_basis(train_rows, n_rb)` per
channel, with the default method `"random"`. -/
def fitAll (rsvd : Mat → Nat → Nat → SVDOut) (scipySvd : Mat → SVDOut)
    (ifos : List String) (bufs : String → Mat) (N_train n_rb : Nat) :
    Except PyErr (List (String × SVDBasis)) :=
  match ifos with
  | [] => .ok []
  | ifo :: rest =>
      match generate_basis rsvd scipySvd ((bufs ifo).takeRows N_train) n_rb "random" with
      | .error e => .error e
      | .ok b =>
          match fitAll rsvd scipySvd rest bufs N_train n_rb with
          | .error e => .error e
          | .ok tail => .ok ((ifo, b) :: tail)

/-- Model of `os.path.join` for a directory and a file name. -/
def path_join (dir name : String) : String := dir ++ "/" ++ name

/-- The save loop: `to_file` for each `V`, `np.save` for each `s`, and the
accumulated `V_paths` list. -/
def saveAll (pairs : List (String × SVDBasis)) (dir suffix : String) :
    List (String × FileVal) × List String :=
  match pairs with
  | [] => ([], [])
  | (ifo, b) :: rest =>
      let vpath := path_join dir ("V_" ++ ifo ++ suffix ++ ".npy")
      let spath := path_join dir ("s_" ++ ifo ++ suffix ++ ".npy")
      let tail := saveAll rest dir suffix
      (to_file b vpath [] ++ [(spath, FileVal.sarr b.s)] ++ tail.1, vpath :: tail.2)

/-- The test loop: `test_basis` on each channel's held-out rows, with the
stats record written to the per-channel stats file. -/
def testAll (sqrt : ℚ → ℚ) (pairs : List (String × SVDBasis))
    (testbufs : String → Mat) (dir suffix : String) :
    Except PyErr (List (String × FileVal) × List String) :=
  match pairs with
  | [] => .ok ([], [])
  | (ifo, b) :: rest =>
      match test_basis_obj sqrt b (testbufs ifo) default_n_values with
      | none => .error (.valueError "unfitted basis")
      | some st =>
          match testAll sqrt rest testbufs dir suffix with
          | .error e => .error e
          | .ok tail =>
              .ok ((path_join dir ("V_" ++ ifo ++ suffix ++ "_stats.npy"),
                    FileVal.statsRec st) :: tail.1,
                   path_join dir ("V_" ++ ifo ++ suffix ++ "_stats.npy") :: tail.2)

/-- Observable outcome of a successful builder run. -/
structure BuildOut where
  V_paths : List String
  files : List (String × FileVal)
  tests_run : List String
  basis_dict : List (String × SVDBasis)
  collectedRows : Nat

/-- Model of `generate_and_save_reduced_basis`.  Returns the result of the
call (the `V_paths` return value plus its observable effects, or the
propagated exception) together with the final waveform-dataset state.
The original transform is reassigned only on the straight-line path after
saving and testing; a propagated exception leaves the reduced transform
in place, exactly as in the source (no try/finally). -/
def generate_and_save_reduced_basis (rsvd : Mat → Nat → Nat → SVDOut)
    (scipySvd : Mat → SVDOut) (sqrt : ℚ → ℚ) (garbage : String → Nat → Nat → CC)
    (wfd : WFD) (omitted_transforms : List Nat)
    (ifos : List String) (M : Nat)
    (batches : List (Except PyErr (String → Mat)))
    (N_train N_test batch_size n_rb : Nat)
    (out_dir : Option String) (suffix : String) :
    Except PyErr BuildOut × WFD :=
  let transforms_rb := wfd.transform.filter (fun tr => tr ∉ omitted_transforms)
  let wfd1 : WFD := { transform := transforms_rb }
  let N := N_train + N_test
  let bufs0 : String → Mat := fun ifo => ⟨N, M, garbage ifo⟩
  match collectLoop ifos batch_size N bufs0 0 batches with
  | .error e => (.error e, wfd1)
  | .ok (bufs, filled) =>
    match fitAll rsvd scipySvd ifos bufs N_train n_rb with
    | .error e => (.error e, wfd1)
    | .ok basis_dict =>
      let saved : List (String × FileVal) × List String :=
        match out_dir with
        | none => ([], [])
        | some dir => saveAll basis_dict dir suffix
      let tested : Except PyErr (List (String × FileVal) × List String) :=
        match out_dir with
        | none => .ok ([], [])
        | some dir =>
            testAll sqrt basis_dict (fun ifo => (bufs ifo).dropRows N_train) dir suffix
      match tested with
      | .error e => (.error e, wfd1)
      | .ok t =>
          (.ok { V_paths := saved.2
                 files := saved.1 ++ t.1
                 tests_run := t.2
                 basis_dict := basis_dict
                 collectedRows := filled },
           { transform := wfd.transform })

/-- Observer: did the builder call return normally. -/
def buildIsOk (r : Except PyErr BuildOut) : Bool :=
  match r with
  | .ok _ => true
  | .error _ => false

/-- Observer: rows collected into each buffer (`0` for a raised call). -/
def buildRows (r : Except PyErr BuildOut) : Nat :=
  match r with
  | .ok o => o.collectedRows
  | .error _ => 0

/-- Observer: the returned `V_paths` (`[]` for a raised call). -/
def buildPaths (r : Except PyErr BuildOut) : List String :=
  match r with
  | .ok o => o.V_paths
  | .error _ => []

/-- Observer: files written during the call (`[]` for a raised call). -/
def buildFiles (r : Except PyErr BuildOut) : List (String × FileVal) :=
  match r with
  | .ok o => o.files
  | .error _ => []

/-- Observer: validation runs performed (`[]` for a raised call). -/
def buildTests (r : Except PyErr BuildOut) : List String :=
  match r with
  | .ok o => o.tests_run
  | .error _ => []

/-- Observer: the per-channel fitted bases (`[]` for a raised call). -/
def buildBases (r : Except PyErr BuildOut) : List (String × SVDBasis) :=
  match r with
  | .ok o => o.basis_dict
  | .error _ => []

/-- Observer: the basis inside a normal `generate_basis` result. -/
def okBasis (r : Except PyErr SVDBasis) : SVDBasis :=
  match r with
  | .ok b => b
  | .error _ => SVDBasis.init

/-! Helper lemmas about the matrix model. -/

theorem Mat.eq_of {A B : Mat} (h1 : A.rows = B.rows) (h2 : A.cols = B.cols)
    (h3 : A.entry = B.entry) : A = B := by
  cases A; cases B; simp_all

theorem Mat.conjT_conjT (A : Mat) : A.conjT.conjT = A := by
  refine Mat.eq_of rfl rfl ?_
  funext i j
  simp [Mat.conjT, CC.conj_conj]

theorem Mat.takeRows_eq_conjT_takeCols (A : Mat) (n : Nat) :
    A.takeRows n = ((A.conjT.takeCols n)).conjT := by
  refine Mat.eq_of rfl rfl ?_
  funext i j
  simp [Mat.takeRows, Mat.takeCols, Mat.conjT, CC.conj_conj]

theorem Mat.takeCols_of_le {A : Mat} {n : Nat} (h : A.cols ≤ n) :
    A.takeCols n = A := by
  refine Mat.eq_of rfl ?_ rfl
  simp [Mat.takeCols, Nat.min_eq_right h]

theorem Mat.takeRows_of_le {A : Mat} {n : Nat} (h : A.rows ≤ n) :
    A.takeRows n = A := by
  refine Mat.eq_of ?_ rfl rfl
  simp [Mat.takeRows, Nat.min_eq_right h]

/-! Claim-level specification predicates. -/

/-- What C1 asserts about the basis produced by an exact-method fit. -/
def exactFitSpec (scipySvd : Mat → SVDOut) (A : Mat) (n : Nat) (b : SVDBasis) : Prop :=
  (n ≠ 0 → n < min A.rows A.cols →
    b.V = some ((scipySvd A).Vh.conjT.takeCols n) ∧
    b.Vh = some ((scipySvd A).Vh.takeRows n) ∧
    b.n = some n) ∧
  ((n = 0 ∨ min A.rows A.cols ≤ n) →
    b.V = some (scipySvd A).Vh.conjT ∧ b.Vh = some (scipySvd A).Vh) ∧
  (∀ W, b.Vh = some W → b.n = some W.rows) ∧
  (n = 0 → b.n = some (min A.rows A.cols)) ∧
  (min A.rows A.cols < n → b.n = some (min A.rows A.cols))

/-- The stored-state invariant of C3: `Vh` is the conjugate transpose of
`V` and the stored rank is the column count of `V`. -/
def projInvariant (b : SVDBasis) : Prop :=
  ∃ V, b.V = some V ∧ b.Vh = some V.conjT ∧ b.n = some V.cols

/-- All four attributes set (a fully initialized basis object). -/
def fullyInit (b : SVDBasis) : Prop :=
  b.V.isSome = true ∧ b.Vh.isSome = true ∧ b.n.isSome = true ∧ b.s.isSome = true

/-- All four attributes unset. -/
def fullyEmpty (b : SVDBasis) : Prop :=
  b.V = none ∧ b.Vh = none ∧ b.n = none ∧ b.s = none

/-! Concrete objects used by witnesses and counterexamples. -/

/-- Constant matrix of a given shape. -/
def constMat (r c : Nat) (x : ℚ) : Mat := ⟨r, c, fun _ _ => ⟨x, 0⟩⟩

/-- A concrete 2 x 3 training matrix. -/
def A0 : Mat := constMat 2 3 1

/-- A concrete oracle for `scipy.linalg.svd` on `A0`-shaped input, with
the documented `full_matrices=False` output shapes. -/
def scipy0 : Mat → SVDOut := fun _ => ⟨constMat 2 2 1, [2, 1], constMat 2 3 (1/2)⟩

/-- A concrete oracle for `randomized_svd`: `n_components` rows in `Vh`. -/
def rsvd0 : Mat → Nat → Nat → SVDOut :=
  fun A n _ => ⟨constMat A.rows n 0, List.replicate n 1, constMat n A.cols (1/3)⟩

/-- C1: the exact ('scipy') method computes a full factorization, truncates
to the first `n` columns of V / rows of Vh exactly when `0 < n <` the
natural rank, otherwise keeps everything; the stored rank is always the
row count of the stored Vh, so `n = 0` and `n >` natural rank both store
rank `min(m,k)`. -/
theorem C1_exact_method_truncation
    (rsvd : Mat → Nat → Nat → SVDOut) (scipySvd : Mat → SVDOut) (A : Mat) (n : Nat)
    (hr : (scipySvd A).Vh.rows = min A.rows A.cols)
    (hc : (scipySvd A).Vh.cols = A.cols) :
    ∃ b, generate_basis rsvd scipySvd A n "scipy" = .ok b ∧ exactFitSpec scipySvd A n b := by
  rw [generate_basis, if_neg (by decide), if_pos rfl]
  dsimp only
  have hlen : ((scipySvd A).Vh.conjT).len = A.cols := by
    simp [Mat.len, Mat.conjT, hc]
  by_cases hcond : n = 0 ∨ n > ((scipySvd A).Vh.conjT).len
  · rw [if_pos hcond]
    refine ⟨_, rfl, ?_, ?_, ?_, ?_, ?_⟩
    · intro hn0 hlt
      exfalso
      rcases hcond with h0 | hbig
      · exact hn0 h0
      · rw [hlen] at hbig
        omega
    · intro _
      exact ⟨rfl, rfl⟩
    · intro W hW
      injection hW with h
      subst h
      rfl
    · intro h0
      show some ((scipySvd A).Vh).len = some (min A.rows A.cols)
      simp [Mat.len, hr]
    · intro hgt
      show some ((scipySvd A).Vh).len = some (min A.rows A.cols)
      simp [Mat.len, hr]
  · rw [if_neg hcond]
    push_neg at hcond
    obtain ⟨hn0, hnk⟩ := hcond
    rw [hlen] at hnk
    refine ⟨_, rfl, ?_, ?_, ?_, ?_, ?_⟩
    · intro _ hlt
      refine ⟨rfl, rfl, ?_⟩
      show some ((scipySvd A).Vh.takeRows n).len = some n
      simp only [Mat.len, Mat.takeRows, hr, Option.some.injEq]
      omega
    · rintro (h0 | hge)
      · exact absurd h0 hn0
      · constructor
        · show some ((scipySvd A).Vh.conjT.takeCols n) = some ((scipySvd A).Vh.conjT)
          congr 1
          refine Mat.takeCols_of_le ?_
          show (scipySvd A).Vh.rows ≤ n
          omega
        · show some ((scipySvd A).Vh.takeRows n) = some (scipySvd A).Vh
          congr 1
          refine Mat.takeRows_of_le ?_
          rw [hr]
          omega
    · intro W hW
      injection hW with h
      subst h
      rfl
    · intro h0
      exact absurd h0 hn0
    · intro hgt
      show some ((scipySvd A).Vh.takeRows n).len = some (min A.rows A.cols)
      simp only [Mat.len, Mat.takeRows, hr, Option.some.injEq]
      omega

/-- Witness for C1 at a concrete 2 x 3 input with requested rank 1. -/
theorem C1_exact_method_truncation_witness :
    ((scipy0 A0).Vh.rows = min A0.rows A0.cols ∧ (scipy0 A0).Vh.cols = A0.cols) ∧
    ∃ b, generate_basis rsvd0 scipy0 A0 1 "scipy" = .ok b ∧ exactFitSpec scipy0 A0 1 b :=
  ⟨⟨rfl, rfl⟩, C1_exact_method_truncation rsvd0 scipy0 A0 1 rfl rfl⟩

/-- C2: the randomized method substitutes `min(m,k)` for a requested rank
of 0, calls the randomized factorization with the fixed seed 0, stores the
cast `Vh`, derives `V` as its conjugate transpose, stores the singular
values, and stores exactly the (substituted) requested rank, with no
adjustment even above the natural rank. -/
theorem C2_randomized_method_stores
    (rsvd : Mat → Nat → Nat → SVDOut) (scipySvd : Mat → SVDOut) (A : Mat) (n : Nat) :
    ∃ b, generate_basis rsvd scipySvd A n "random" = .ok b ∧
      b.Vh = some (astypeComplex (rsvd A (if n = 0 then min A.rows A.cols else n) 0).Vh) ∧
      b.V = some (astypeComplex (rsvd A (if n = 0 then min A.rows A.cols else n) 0).Vh).conjT ∧
      b.s = some (rsvd A (if n = 0 then min A.rows A.cols else n) 0).s ∧
      b.n = some (if n = 0 then min A.rows A.cols else n) := by
  rw [generate_basis, if_pos rfl]
  dsimp only
  exact ⟨_, rfl, rfl, rfl, rfl, rfl⟩

/-- C3: every state-populating operation establishes the invariant that
`Vh` is the conjugate transpose of `V` and the stored rank is the column
count of `V`; moreover a fit at rank `0 < n ≤ min(m,k)` on an `m x k`
matrix yields `V` of shape `(k, n)` and `Vh` of shape `(n, k)` (for the
randomized path, under the oracle's documented output shape). -/
theorem C3_state_invariant :
    (∀ (rsvd : Mat → Nat → Nat → SVDOut) (scipySvd : Mat → SVDOut) (A : Mat) (n : Nat) b,
      generate_basis rsvd scipySvd A n "scipy" = .ok b → projInvariant b) ∧
    (∀ (rsvd : Mat → Nat → Nat → SVDOut) (scipySvd : Mat → SVDOut) (A : Mat) (n : Nat) b,
      (rsvd A (if n = 0 then min A.rows A.cols else n) 0).Vh.rows
        = (if n = 0 then min A.rows A.cols else n) →
      generate_basis rsvd scipySvd A n "random" = .ok b → projInvariant b) ∧
    (∀ b content, projInvariant (from_file b content)) ∧
    (∀ b V, projInvariant (from_V b V)) ∧
    (∀ (rsvd : Mat → Nat → Nat → SVDOut) (scipySvd : Mat → SVDOut) (A : Mat) (n : Nat) b,
      0 < n → n ≤ min A.rows A.cols →
      (scipySvd A).Vh.rows = min A.rows A.cols →
      (scipySvd A).Vh.cols = A.cols →
      generate_basis rsvd scipySvd A n "scipy" = .ok b →
      ∃ V' Vh', b.V = some V' ∧ b.Vh = some Vh' ∧
        V'.rows = A.cols ∧ V'.cols = n ∧ Vh'.rows = n ∧ Vh'.cols = A.cols ∧
        Vh' = V'.conjT) ∧
    (∀ (rsvd : Mat → Nat → Nat → SVDOut) (scipySvd : Mat → SVDOut) (A : Mat) (n : Nat) b,
      0 < n → n ≤ min A.rows A.cols →
      (rsvd A n 0).Vh.rows = n →
      (rsvd A n 0).Vh.cols = A.cols →
      generate_basis rsvd scipySvd A n "random" = .ok b →
      ∃ V' Vh', b.V = some V' ∧ b.Vh = some Vh' ∧
        V'.rows = A.cols ∧ V'.cols = n ∧ Vh'.rows = n ∧ Vh'.cols = A.cols ∧
        Vh' = V'.conjT) := by
  refine ⟨?_, ?_, ?_, ?_, ?_, ?_⟩
  · intro rsvd scipySvd A n b h
    rw [generate_basis, if_neg (by decide), if_pos rfl] at h
    dsimp only at h
    injection h with h
    subst h
    by_cases hcond : n = 0 ∨ n > ((scipySvd A).Vh.conjT).len
    · rw [if_pos hcond]
      refine ⟨(scipySvd A).Vh.conjT, rfl, ?_, rfl⟩
      show some (scipySvd A).Vh = some ((scipySvd A).Vh.conjT).conjT
      rw [Mat.conjT_conjT]
    · rw [if_neg hcond]
      refine ⟨(scipySvd A).Vh.conjT.takeCols n, rfl, ?_, rfl⟩
      show some ((scipySvd A).Vh.takeRows n)
        = some (((scipySvd A).Vh.conjT.takeCols n)).conjT
      rw [← Mat.takeRows_eq_conjT_takeCols]
  · intro rsvd scipySvd A n b hrows h
    rw [generate_basis, if_pos rfl] at h
    dsimp only at h
    injection h with h
    subst h
    refine ⟨(astypeComplex (rsvd A (if n = 0 then min A.rows A.cols else n) 0).Vh).conjT,
      rfl, ?_, ?_⟩
    · show some (astypeComplex (rsvd A (if n = 0 then min A.rows A.cols else n) 0).Vh)
        = some ((astypeComplex (rsvd A (if n = 0 then min A.rows A.cols else n) 0).Vh).conjT).conjT
      rw [Mat.conjT_conjT]
    · show some (if n = 0 then min A.rows A.cols else n)
        = some ((rsvd A (if n = 0 then min A.rows A.cols else n) 0).Vh.rows)
      rw [hrows]
  · intro b content
    exact ⟨content, rfl, rfl, rfl⟩
  · intro b V
    exact ⟨V, rfl, rfl, rfl⟩
  · intro rsvd scipySvd A n b hpos hle hrw hcw h
    rw [generate_basis, if_neg (by decide), if_pos rfl] at h
    dsimp only at h
    injection h with h
    subst h
    have hcond : ¬ (n = 0 ∨ n > ((scipySvd A).Vh.conjT).len) := by
      push_neg
      refine ⟨by omega, ?_⟩
      show n ≤ (scipySvd A).Vh.cols
      omega
    rw [if_neg hcond]
    refine ⟨_, _, rfl, rfl, ?_, ?_, ?_, ?_, Mat.takeRows_eq_conjT_takeCols _ _⟩
    · exact hcw
    · show min n ((scipySvd A).Vh.rows) = n
      rw [hrw]
      omega
    · show min n ((scipySvd A).Vh.rows) = n
      rw [hrw]
      omega
    · exact hcw
  · intro rsvd scipySvd A n b hpos hle hrw hcw h
    rw [generate_basis, if_pos rfl] at h
    dsimp only at h
    rw [if_neg (by omega : ¬ n = 0)] at h
    injection h with h
    subst h
    refine ⟨_, _, rfl, rfl, ?_, ?_, ?_, ?_, ?_⟩
    · exact hcw
    · exact hrw
    · exact hrw
    · exact hcw
    · exact (Mat.conjT_conjT _).symm

/-- Witness for C3: the invariant after a concrete exact-method fit. -/
theorem C3_state_invariant_witness :
    generate_basis rsvd0 scipy0 A0 1 "scipy"
      = .ok (okBasis (generate_basis rsvd0 scipy0 A0 1 "scipy")) ∧
    projInvariant (okBasis (generate_basis rsvd0 scipy0 A0 1 "scipy")) :=
  ⟨rfl, C3_state_invariant.1 rsvd0 scipy0 A0 1 _ rfl⟩

/-- Counterexample to C4: loading a basis from an in-memory matrix on a
fresh object sets `V`, `Vh` and the rank but not the singular values, a
partial state that is neither fully initialized nor fully empty. -/
theorem C4_counterexample :
    ¬ (fullyInit (from_V SVDBasis.init (constMat 2 2 1)) ∨
       fullyEmpty (from_V SVDBasis.init (constMat 2 2 1))) := by
  rintro (h | h)
  · simp [fullyInit, from_V, SVDBasis.init] at h
  · simp [fullyEmpty, from_V, SVDBasis.init] at h

/-- C4 as amended: fitting (either method, any normal return) fully
populates the basis; `from_V` and `from_file` set `V`, `Vh` and the rank
but leave the singular-value attribute unchanged (so unset on a fresh
object); a freshly constructed basis is fully empty. -/
theorem C4_population_amended :
    (∀ (rsvd : Mat → Nat → Nat → SVDOut) (scipySvd : Mat → SVDOut) (A : Mat)
        (n : Nat) (method : String) b,
      generate_basis rsvd scipySvd A n method = .ok b → fullyInit b) ∧
    (∀ b M, (from_V b M).V.isSome = true ∧ (from_V b M).Vh.isSome = true ∧
      (from_V b M).n.isSome = true ∧ (from_V b M).s = b.s) ∧
    (∀ b M, (from_file b M).V.isSome = true ∧ (from_file b M).Vh.isSome = true ∧
      (from_file b M).n.isSome = true ∧ (from_file b M).s = b.s) ∧
    fullyEmpty SVDBasis.init := by
  refine ⟨?_, ?_, ?_, ⟨rfl, rfl, rfl, rfl⟩⟩
  · intro rsvd scipySvd A n method b h
    rw [generate_basis] at h
    split at h
    · dsimp only at h
      injection h with h
      subst h
      exact ⟨rfl, rfl, rfl, rfl⟩
    · split at h
      · dsimp only at h
        injection h with h
        subst h
        exact ⟨rfl, rfl, rfl, rfl⟩
      · exact absurd h (by simp)
  · intro b M
    exact ⟨rfl, rfl, rfl, rfl⟩
  · intro b M
    exact ⟨rfl, rfl, rfl, rfl⟩

/-- Witness for C4 as amended: a concrete randomized fit is fully
initialized. -/
theorem C4_population_amended_witness :
    generate_basis rsvd0 scipy0 A0 2 "random"
      = .ok (okBasis (generate_basis rsvd0 scipy0 A0 2 "random")) ∧
    fullyInit (okBasis (generate_basis rsvd0 scipy0 A0 2 "random")) :=
  ⟨rfl, C4_population_amended.1 rsvd0 scipy0 A0 2 "random" _ rfl⟩

/-! Claim C5: the validator.  The quantities the claim names, written out
from its own wording. -/

/-- Reconstruction named by C5: `(h @ V[:, :n]) @ Vh[:n]`. -/
def specReconstruct (V Vh : Mat) (n : Nat) (h : Vec) : Vec :=
  (h.vecMatMul (V.takeCols n)).vecMatMul (Vh.takeRows n)

/-- Per-sample mismatch named by C5:
`1 - inner / sqrt(norm1 * norm2)` with `norm1 = mean |h|^2`,
`norm2 = mean |h_reconstructed|^2`,
`inner = Re(mean(conj(h) * h_reconstructed))`. -/
def specMismatch (sqrt : ℚ → ℚ) (V Vh : Mat) (n : Nat) (h : Vec) : ℚ :=
  let hrec := specReconstruct V Vh n h
  let norm1 := meanQ (fun i => (h.entry i).abs2) h.len
  let norm2 := meanQ (fun i => (hrec.entry i).abs2) hrec.len
  let inner := (h.conjV.mulV hrec).meanC.re
  1 - inner / sqrt (norm1 * norm2)

/-- Per-sample max deviation named by C5: `max |h - h_reconstructed|`. -/
def specMaxDev (sqrt : ℚ → ℚ) (V Vh : Mat) (n : Nat) (h : Vec) : ℚ :=
  let hrec := specReconstruct V Vh n h
  maxQ (fun i => sqrt ((h.subV hrec).entry i).abs2) h.len

theorem specMismatch_eq_testRow (sqrt : ℚ → ℚ) (V Vh : Mat) (n : Nat) (h : Vec) :
    specMismatch sqrt V Vh n h = 1 - (testRow sqrt V Vh n h).1 := rfl

theorem specMaxDev_eq_testRow (sqrt : ℚ → ℚ) (V Vh : Mat) (n : Nat) (h : Vec) :
    specMaxDev sqrt V Vh n h = (testRow sqrt V Vh n h).2 := rfl

/-- Characterization of the `test_basis` loop: the two dicts collect, in
order, exactly the candidate ranks not exceeding the fitted rank, each
keyed to its per-sample lists. -/
theorem test_basis_foldl (sqrt : ℚ → ℚ) (V Vh : Mat) (nfit : Nat)
    (test_data : Mat) (l : List Nat) (acc : TestStats) :
    (l.foldl (test_basis_step sqrt V Vh nfit test_data) acc).s = acc.s ∧
    (l.foldl (test_basis_step sqrt V Vh nfit test_data) acc).mismatches
      = acc.mismatches ++ (l.filter (fun n => ! decide (n > nfit))).map
          (fun n => (n, (List.range test_data.rows).map
            (fun i => 1 - (testRow sqrt V Vh n (test_data.row i)).1))) ∧
    (l.foldl (test_basis_step sqrt V Vh nfit test_data) acc).max_deviations
      = acc.max_deviations ++ (l.filter (fun n => ! decide (n > nfit))).map
          (fun n => (n, (List.range test_data.rows).map
            (fun i => (testRow sqrt V Vh n (test_data.row i)).2))) := by
  induction l generalizing acc with
  | nil => exact ⟨rfl, by simp, by simp⟩
  | cons a t ih =>
      by_cases h : a > nfit
      · have hstep : test_basis_step sqrt V Vh nfit test_data acc a = acc := by
          rw [test_basis_step, if_pos h]
        obtain ⟨ih1, ih2, ih3⟩ := ih (test_basis_step sqrt V Vh nfit test_data acc a)
        refine ⟨?_, ?_, ?_⟩
        · rw [List.foldl_cons, ih1, hstep]
        · rw [List.foldl_cons, ih2, hstep, List.filter_cons_of_neg (by simp [h])]
        · rw [List.foldl_cons, ih3, hstep, List.filter_cons_of_neg (by simp [h])]
      · have hstep : test_basis_step sqrt V Vh nfit test_data acc a
            = { acc with
                mismatches := acc.mismatches ++ [(a, (List.range test_data.rows).map
                  (fun i => 1 - (testRow sqrt V Vh a (test_data.row i)).1))]
                max_deviations := acc.max_deviations ++ [(a, (List.range test_data.rows).map
                  (fun i => (testRow sqrt V Vh a (test_data.row i)).2))] } := by
          rw [test_basis_step, if_neg h]
          dsimp only
          congr 2 <;> rw [List.map_map] <;> rfl
        obtain ⟨ih1, ih2, ih3⟩ := ih (test_basis_step sqrt V Vh nfit test_data acc a)
        refine ⟨?_, ?_, ?_⟩
        · rw [List.foldl_cons, ih1, hstep]
        · rw [List.foldl_cons, ih2, hstep, List.filter_cons_of_pos (by simp [h])]
          simp [List.append_assoc]
        · rw [List.foldl_cons, ih3, hstep, List.filter_cons_of_pos (by simp [h])]
          simp [List.append_assoc]

/-- Lookup in an association list keyed by its own elements. -/
theorem lookup_keyed_mem {β : Type} (f : Nat → β) (l : List Nat) (n : Nat)
    (h : n ∈ l) : List.lookup n (l.map (fun m => (m, f m))) = some (f n) := by
  induction l with
  | nil => cases h
  | cons a t ih =>
      by_cases heq : n = a
      · subst heq
        simp [List.lookup]
      · rcases List.mem_cons.mp h with h1 | h2
        · exact absurd h1 heq
        · have hba : (n == a) = false := by simp [heq]
          simp only [List.map_cons, List.lookup, hba]
          exact ih h2

/-- A key outside the list is absent from the keyed association list. -/
theorem lookup_keyed_not_mem {β : Type} (f : Nat → β) (l : List Nat) (n : Nat)
    (h : n ∉ l) : List.lookup n (l.map (fun m => (m, f m))) = none := by
  induction l with
  | nil => rfl
  | cons a t ih =>
      have hne : n ≠ a := fun he => h (he ▸ List.mem_cons_self a t)
      have hnt : n ∉ t := fun ht => h (List.mem_cons_of_mem a ht)
      have hba : (n == a) = false := by simp [hne]
      simp only [List.map_cons, List.lookup, hba]
      exact ih hnt

/-- C5: for every fitted basis, candidate rank `n` at most the fitted
rank, and test matrix, the validator records per sample
`mismatch = 1 - inner / sqrt(norm1 * norm2)` and
`max_deviation = max |h - h_reconstructed|` for
`h_reconstructed = (h @ V[:, :n]) @ Vh[:n]`; candidate ranks above the
fitted rank are absent from both output dicts. -/
theorem C5_validator_records (sqrt : ℚ → ℚ) (V Vh : Mat) (nfit : Nat)
    (s : List ℚ) (test_data : Mat) (n_values : List Nat) (n : Nat) :
    (n ∈ n_values → ¬ n > nfit →
      List.lookup n (test_basis sqrt V Vh nfit s test_data n_values).mismatches
        = some ((List.range test_data.rows).map
            (fun i => specMismatch sqrt V Vh n (test_data.row i))) ∧
      List.lookup n (test_basis sqrt V Vh nfit s test_data n_values).max_deviations
        = some ((List.range test_data.rows).map
            (fun i => specMaxDev sqrt V Vh n (test_data.row i)))) ∧
    (n > nfit →
      List.lookup n (test_basis sqrt V Vh nfit s test_data n_values).mismatches = none ∧
      List.lookup n (test_basis sqrt V Vh nfit s test_data n_values).max_deviations = none) := by
  obtain ⟨hs, hm, hd⟩ := test_basis_foldl sqrt V Vh nfit test_data n_values
    { s := some s, mismatches := [], max_deviations := [] }
  rw [test_basis, hm, hd]
  constructor
  · intro hmem hle
    have hmemf : n ∈ n_values.filter (fun m => ! decide (m > nfit)) :=
      List.mem_filter.mpr ⟨hmem, by simpa using hle⟩
    constructor
    · rw [List.nil_append, lookup_keyed_mem _ _ _ hmemf]
      simp [specMismatch_eq_testRow]
    · rw [List.nil_append, lookup_keyed_mem _ _ _ hmemf]
      simp [specMaxDev_eq_testRow]
  · intro hgt
    have hnot : n ∉ n_values.filter (fun m => ! decide (m > nfit)) := by
      intro hmem
      have := (List.mem_filter.mp hmem).2
      simp at this
      omega
    exact ⟨by rw [List.nil_append, lookup_keyed_not_mem _ _ _ hnot],
           by rw [List.nil_append, lookup_keyed_not_mem _ _ _ hnot]⟩

/-- Witness for C5 at a concrete basis of fitted rank 1 with candidate
ranks `[1, 2]`: rank 1 is recorded. -/
theorem C5_validator_records_witness :
    ((1 ∈ [1, 2] ∧ ¬ (1 : Nat) > 1) ∧
      List.lookup 1 (test_basis id (constMat 3 1 1) (constMat 1 3 1) 1 [1]
          (constMat 2 3 1) [1, 2]).mismatches
        = some ((List.range (constMat 2 3 1).rows).map
            (fun i => specMismatch id (constMat 3 1 1) (constMat 1 3 1) 1
              ((constMat 2 3 1).row i)))) ∧
    ((2 : Nat) > 1 ∧
      List.lookup 2 (test_basis id (constMat 3 1 1) (constMat 1 3 1) 1 [1]
          (constMat 2 3 1) [1, 2]).mismatches = none) :=
  ⟨⟨⟨by decide, by decide⟩,
    ((C5_validator_records id (constMat 3 1 1) (constMat 1 3 1) 1 [1]
      (constMat 2 3 1) [1, 2] 1).1 (by decide) (by decide)).1⟩,
   ⟨by decide,
    ((C5_validator_records id (constMat 3 1 1) (constMat 1 3 1) 1 [1]
      (constMat 2 3 1) [1, 2] 2).2 (by decide)).1⟩⟩

/-- C6: saving persists only `V` and is a no-op on an empty basis; loading
the saved file restores `V` with the same shape and values, re-derives
`Vh` as its conjugate transpose and the rank as `V`'s column count, so a
save-then-load round trip reproduces an equivalent projection state. -/
theorem C6_save_load_round_trip :
    (∀ (b : SVDBasis) (fname : String) (fs : FileStore),
      b.V = none → to_file b fname fs = fs) ∧
    (∀ (b b0 : SVDBasis) (fname : String) (fs : FileStore) (M : Mat),
      b.V = some M →
      from_file_fs b0 fname (to_file b fname fs)
        = some { V := some M, Vh := some M.conjT, n := some M.cols, s := b0.s }) ∧
    (∀ (b b0 : SVDBasis) (fname : String) (fs : FileStore) (M : Mat),
      b.V = some M → b.Vh = some M.conjT → b.n = some M.cols →
      ∃ b', from_file_fs b0 fname (to_file b fname fs) = some b' ∧
        b'.V = b.V ∧ b'.Vh = b.Vh ∧ b'.n = b.n) := by
  have hload : ∀ (b b0 : SVDBasis) (fname : String) (fs : FileStore) (M : Mat),
      b.V = some M →
      from_file_fs b0 fname (to_file b fname fs)
        = some { V := some M, Vh := some M.conjT, n := some M.cols, s := b0.s } := by
    intro b b0 fname fs M h
    rw [to_file, h, from_file_fs, np_load]
    simp [List.lookup, from_file]
  refine ⟨?_, hload, ?_⟩
  · intro b fname fs h
    rw [to_file, h]
  · intro b b0 fname fs M h hVh hn
    exact ⟨_, hload b b0 fname fs M h, by rw [h], by rw [hVh], by rw [hn]⟩

/-- Witness for C6: round trip through a concrete populated basis. -/
theorem C6_save_load_round_trip_witness :
    ((from_V SVDBasis.init (constMat 2 2 1)).V = some (constMat 2 2 1) ∧
     (from_V SVDBasis.init (constMat 2 2 1)).Vh = some (constMat 2 2 1).conjT ∧
     (from_V SVDBasis.init (constMat 2 2 1)).n = some (constMat 2 2 1).cols) ∧
    ∃ b', from_file_fs SVDBasis.init "V.npy"
        (to_file (from_V SVDBasis.init (constMat 2 2 1)) "V.npy" []) = some b' ∧
      b'.V = (from_V SVDBasis.init (constMat 2 2 1)).V ∧
      b'.Vh = (from_V SVDBasis.init (constMat 2 2 1)).Vh ∧
      b'.n = (from_V SVDBasis.init (constMat 2 2 1)).n :=
  ⟨⟨rfl, rfl, rfl⟩,
   C6_save_load_round_trip.2.2 (from_V SVDBasis.init (constMat 2 2 1))
     SVDBasis.init "V.npy" [] (constMat 2 2 1) rfl rfl rfl⟩

/-- C9: applying Compress then Decompress to a per-channel dict whose
arrays' last dimension is the signal length returns a dict with the same
keys and per-channel shapes, each channel passing through the forward then
the inverse projection. -/
theorem C9_compress_then_decompress (b : SVDBasis) (V0 : Mat)
    (hV : b.V = some V0) (hVh : b.Vh = some V0.conjT) :
    ∀ (d : List (String × Mat)), (∀ p ∈ d, (p.2).cols = V0.rows) →
    ∃ c u, applySVD b d = some c ∧ undoSVD b c = some u ∧
      List.Forall₂ (fun (p q : String × Mat) =>
        q.1 = p.1 ∧ q.2 = p.2.matMul V0) d c ∧
      u.map Prod.fst = d.map Prod.fst ∧
      List.Forall₂ (fun (p q : String × Mat) =>
        q.1 = p.1 ∧ q.2.rows = p.2.rows ∧ q.2.cols = p.2.cols) d u := by
  intro d
  induction d with
  | nil => exact fun _ => ⟨[], [], rfl, rfl, List.Forall₂.nil, rfl, List.Forall₂.nil⟩
  | cons p t ih =>
      intro hd
      obtain ⟨c, u, hc, hu, hfc, hk, hf⟩ :=
        ih (fun q hq => hd q (List.mem_cons_of_mem p hq))
      refine ⟨(p.1, p.2.matMul V0) :: c, (p.1, (p.2.matMul V0).matMul V0.conjT) :: u,
        ?_, ?_, ?_, ?_, ?_⟩
      · rw [applySVD] at hc ⊢
        rw [List.mapM_cons]
        simp only [fseries_to_basis_coefficients, hV, Option.map_some'] at hc ⊢
        rw [hc]
        rfl
      · rw [undoSVD] at hu ⊢
        rw [List.mapM_cons]
        simp only [basis_coefficients_to_fseries, hVh, Option.map_some'] at hu ⊢
        rw [hu]
        rfl
      · exact List.Forall₂.cons ⟨rfl, rfl⟩ hfc
      · simp [hk]
      · refine List.Forall₂.cons ⟨rfl, rfl, ?_⟩ hf
        show V0.conjT.cols = p.2.cols
        rw [hd p (List.mem_cons_self p t)]
        rfl

/-- Witness for C9 on a one-channel dict with a 1 x 2 array and a 2 x 1
basis matrix. -/
theorem C9_compress_then_decompress_witness :
    ((from_V SVDBasis.init (constMat 2 1 1)).V = some (constMat 2 1 1) ∧
     (from_V SVDBasis.init (constMat 2 1 1)).Vh = some (constMat 2 1 1).conjT ∧
     (∀ p ∈ [("H1", constMat 1 2 1)], (Prod.snd p).cols = (constMat 2 1 1).rows)) ∧
    ∃ c u, applySVD (from_V SVDBasis.init (constMat 2 1 1)) [("H1", constMat 1 2 1)] = some c ∧
      undoSVD (from_V SVDBasis.init (constMat 2 1 1)) c = some u ∧
      List.Forall₂ (fun (p q : String × Mat) =>
        q.1 = p.1 ∧ q.2 = p.2.matMul (constMat 2 1 1)) [("H1", constMat 1 2 1)] c ∧
      u.map Prod.fst = [("H1", constMat 1 2 1)].map Prod.fst ∧
      List.Forall₂ (fun (p q : String × Mat) =>
        q.1 = p.1 ∧ q.2.rows = p.2.rows ∧ q.2.cols = p.2.cols)
        [("H1", constMat 1 2 1)] u :=
  ⟨⟨rfl, rfl, fun p hp => by
      rcases List.mem_singleton.mp hp with h
      subst h
      rfl⟩,
   C9_compress_then_decompress (from_V SVDBasis.init (constMat 2 1 1))
     (constMat 2 1 1) rfl rfl [("H1", constMat 1 2 1)]
     (fun p hp => by
       rcases List.mem_singleton.mp hp with h
       subst h
       rfl)⟩

/-! Lemmas about the builder's phases. -/

/-- A fit with the default `"random"` method always returns normally,
fully populated. -/
theorem generate_basis_random_ok (rsvd : Mat → Nat → Nat → SVDOut)
    (scipySvd : Mat → SVDOut) (A : Mat) (n : Nat) :
    ∃ b, generate_basis rsvd scipySvd A n "random" = .ok b ∧ fullyInit b := by
  rw [generate_basis, if_pos rfl]
  dsimp only
  exact ⟨_, rfl, rfl, rfl, rfl, rfl⟩

/-- A normal return of the fit loop carries one fully populated basis per
channel, keyed in order. -/
theorem fitAll_spec (rsvd : Mat → Nat → Nat → SVDOut) (scipySvd : Mat → SVDOut) :
    ∀ (ifos : List String) (bufs : String → Mat) (N_train n_rb : Nat)
      (l : List (String × SVDBasis)),
      fitAll rsvd scipySvd ifos bufs N_train n_rb = .ok l →
      l.map Prod.fst = ifos ∧ ∀ p ∈ l, fullyInit p.2 := by
  intro ifos
  induction ifos with
  | nil =>
      intro bufs N_train n_rb l h
      rw [fitAll] at h
      injection h with h
      subst h
      exact ⟨rfl, fun p hp => absurd hp (List.not_mem_nil p)⟩
  | cons k rest ih =>
      intro bufs N_train n_rb l h
      rw [fitAll] at h
      obtain ⟨b, hb, hbfull⟩ :=
        generate_basis_random_ok rsvd scipySvd ((bufs k).takeRows N_train) n_rb
      rw [hb] at h
      cases hrest : fitAll rsvd scipySvd rest bufs N_train n_rb with
      | error e =>
          rw [hrest] at h
          exact Except.noConfusion
            (show (Except.error e : Except PyErr (List (String × SVDBasis))) = .ok l from h)
      | ok tail =>
          rw [hrest] at h
          have h2 : ((k, b) :: tail : List (String × SVDBasis)) = l := by
            injection (show (Except.ok ((k, b) :: tail) : Except PyErr _) = .ok l from h)
          subst h2
          obtain ⟨ih1, ih2⟩ := ih bufs N_train n_rb tail hrest
          refine ⟨by simp [ih1], ?_⟩
          intro p hp
          rcases List.mem_cons.mp hp with h1 | h1
          · subst h1
            exact hbfull
          · exact ih2 p h1

/-- The fit loop, whose per-channel method is the default `"random"`,
never raises. -/
theorem fitAll_ok (rsvd : Mat → Nat → Nat → SVDOut) (scipySvd : Mat → SVDOut) :
    ∀ (ifos : List String) (bufs : String → Mat) (N_train n_rb : Nat),
      ∃ l, fitAll rsvd scipySvd ifos bufs N_train n_rb = .ok l := by
  intro ifos
  induction ifos with
  | nil => exact fun bufs _ _ => ⟨[], rfl⟩
  | cons k rest ih =>
      intro bufs N_train n_rb
      obtain ⟨b, hb, _⟩ :=
        generate_basis_random_ok rsvd scipySvd ((bufs k).takeRows N_train) n_rb
      obtain ⟨tail, htail⟩ := ih bufs N_train n_rb
      refine ⟨(k, b) :: tail, ?_⟩
      rw [fitAll, hb, htail]

/-- The per-batch copy succeeds on every channel whose batch slice has
exactly the required row count. -/
theorem copyAll_ok (lower n : Nat) (batch : String → Mat) :
    ∀ (ifos : List String) (bufs : String → Mat),
      (∀ k ∈ ifos, min (batch k).rows n = n) →
      ∃ bufs2, copyAll ifos bufs lower n batch = .ok bufs2 := by
  intro ifos
  induction ifos with
  | nil => exact fun bufs _ => ⟨bufs, rfl⟩
  | cons k rest ih =>
      intro bufs hk
      obtain ⟨m, hm⟩ : ∃ m, copyChannel (bufs k) lower n (batch k) = .ok m := by
        rw [copyChannel]
        rw [if_pos (Or.inl (hk k (List.mem_cons_self k rest)))]
        exact ⟨_, rfl⟩
      obtain ⟨bufs2, h2⟩ := ih (fun k2 => if k2 = k then m else bufs k2)
        (fun k2 hk2 => hk k2 (List.mem_cons_of_mem k hk2))
      refine ⟨bufs2, ?_⟩
      rw [copyAll, hm]
      exact h2

/-- When the loader yields only full batches and runs out before `N` rows
have arrived, the collection loop ends without error, having filled only
`batches.length * bs` leading rows of each buffer. -/
theorem collectLoop_exhaust (ifos : List String) (bs N : Nat) :
    ∀ (batches : List (Except PyErr (String → Mat))) (idx : Nat) (bufs : String → Mat),
      (∀ b ∈ batches, ∃ f, b = .ok f ∧ ∀ k ∈ ifos, (f k).rows = bs) →
      (idx + batches.length) * bs < N →
      ∃ bufs2, collectLoop ifos bs N bufs idx batches
        = .ok (bufs2, (idx + batches.length) * bs) := by
  intro batches
  induction batches with
  | nil =>
      intro idx bufs _ hlt
      refine ⟨bufs, ?_⟩
      have hlt2 : idx * bs < N := by simpa using hlt
      have h1 : min (idx * bs) N = idx * bs := Nat.min_eq_left (Nat.le_of_lt hlt2)
      simp [collectLoop, h1]
  | cons b? rest ih =>
      intro idx bufs hb hlt
      obtain ⟨f, hf, hrows⟩ := hb b? (List.mem_cons_self b? rest)
      subst hf
      have e1 : (idx + (List.length rest + 1)) * bs = (idx + 1 + List.length rest) * bs := by
        congr 1
        omega
      have e2 : (idx + 1) * bs ≤ (idx + 1 + List.length rest) * bs :=
        Nat.mul_le_mul_right bs (by omega)
      have e3 : idx * bs + bs = (idx + 1) * bs := (Nat.succ_mul idx bs).symm
      have hlt' : (idx + 1 + List.length rest) * bs < N := by
        rw [← e1]
        simpa using hlt
      have hbs : idx * bs + bs < N := by omega
      have hn : min bs (N - idx * bs) = bs := Nat.min_eq_left (by omega)
      obtain ⟨bufs1, hcopy⟩ := copyAll_ok (idx * bs) (min bs (N - idx * bs)) f ifos bufs
        (fun k hk => by
          rw [hrows k hk, hn]
          exact Nat.min_self bs)
      obtain ⟨bufs2, hrec⟩ := ih (idx + 1) bufs1
        (fun bb hbb => hb bb (List.mem_cons_of_mem _ hbb)) hlt'
      refine ⟨bufs2, ?_⟩
      rw [collectLoop]
      rw [hcopy, hn]
      dsimp only
      have e4 : (idx + (Except.ok f :: rest).length) * bs = (idx + 1 + rest.length) * bs := by
        congr 1
        simp only [List.length_cons]
        omega
      rw [if_neg (by omega : ¬ idx * bs + bs = N), hrec, e4]

/-- The validation loop returns normally on fully populated bases. -/
theorem testAll_ok (sqrt : ℚ → ℚ) :
    ∀ (pairs : List (String × SVDBasis)),
      (∀ p ∈ pairs, fullyInit p.2) →
      ∀ (testbufs : String → Mat) (dir suffix : String),
      ∃ t, testAll sqrt pairs testbufs dir suffix = .ok t := by
  intro pairs
  induction pairs with
  | nil => exact fun _ testbufs dir suffix => ⟨([], []), rfl⟩
  | cons p rest ih =>
      intro hfull testbufs dir suffix
      obtain ⟨ifo, b⟩ := p
      have h4 : fullyInit b := hfull (ifo, b) (List.mem_cons_self _ _)
      obtain ⟨hV, hVh, hn, hs⟩ := h4
      obtain ⟨V, hV2⟩ := Option.isSome_iff_exists.mp hV
      obtain ⟨Vh, hVh2⟩ := Option.isSome_iff_exists.mp hVh
      obtain ⟨nf, hn2⟩ := Option.isSome_iff_exists.mp hn
      obtain ⟨sv, hs2⟩ := Option.isSome_iff_exists.mp hs
      obtain ⟨t, ht⟩ := ih (fun q hq => hfull q (List.mem_cons_of_mem _ hq)) testbufs dir suffix
      refine ⟨((path_join dir ("V_" ++ ifo ++ suffix ++ "_stats.npy"),
          FileVal.statsRec (test_basis sqrt V Vh nf sv (testbufs ifo) default_n_values)) :: t.1,
          path_join dir ("V_" ++ ifo ++ suffix ++ "_stats.npy") :: t.2), ?_⟩
      rw [testAll]
      rw [test_basis_obj, hV2, hVh2, hn2, hs2]
      dsimp only
      rw [ht]

/-- C7 as amended: the builder restores the original transform exactly on
its normal-return path; when any phase raises, the propagated call leaves
the reduced transform list installed on the data source. -/
theorem C7_restore_only_on_normal_return (rsvd : Mat → Nat → Nat → SVDOut)
    (scipySvd : Mat → SVDOut) (sqrt : ℚ → ℚ) (garbage : String → Nat → Nat → CC)
    (wfd : WFD) (omitted : List Nat) (ifos : List String) (M : Nat)
    (batches : List (Except PyErr (String → Mat)))
    (N_train N_test bs n_rb : Nat) (out_dir : Option String) (suffix : String) :
    (buildIsOk (generate_and_save_reduced_basis rsvd scipySvd sqrt garbage wfd omitted
        ifos M batches N_train N_test bs n_rb out_dir suffix).1 = true →
      (generate_and_save_reduced_basis rsvd scipySvd sqrt garbage wfd omitted
        ifos M batches N_train N_test bs n_rb out_dir suffix).2.transform
        = wfd.transform) ∧
    (buildIsOk (generate_and_save_reduced_basis rsvd scipySvd sqrt garbage wfd omitted
        ifos M batches N_train N_test bs n_rb out_dir suffix).1 = false →
      (generate_and_save_reduced_basis rsvd scipySvd sqrt garbage wfd omitted
        ifos M batches N_train N_test bs n_rb out_dir suffix).2.transform
        = wfd.transform.filter (fun tr => tr ∉ omitted)) := by
  rw [generate_and_save_reduced_basis]
  cases hcol : collectLoop ifos bs (N_train + N_test)
      (fun ifo => ⟨N_train + N_test, M, garbage ifo⟩) 0 batches with
  | error e =>
      constructor
      · intro h
        simp [buildIsOk] at h
      · intro _
        rfl
  | ok pr =>
      obtain ⟨bufs, filled⟩ := pr
      dsimp only
      cases hfit : fitAll rsvd scipySvd ifos bufs N_train n_rb with
      | error e =>
          constructor
          · intro h
            simp [buildIsOk] at h
          · intro _
            rfl
      | ok l =>
          cases out_dir with
          | none =>
              constructor
              · intro _
                rfl
              · intro h
                simp [buildIsOk] at h
          | some dir =>
              dsimp only
              cases htest : testAll sqrt l (fun ifo => (bufs ifo).dropRows N_train)
                  dir suffix with
              | error e =>
                  constructor
                  · intro h
                    simp [buildIsOk] at h
                  · intro _
                    rfl
              | ok t =>
                  constructor
                  · intro _
                    rfl
                  · intro h
                    simp [buildIsOk] at h

/-- Witness for C7 as amended: a successful concrete run restores the
original transform. -/
theorem C7_restore_only_on_normal_return_witness :
    buildIsOk (generate_and_save_reduced_basis rsvd0 scipy0 id (fun _ _ _ => CC.zero)
      ⟨[0, 1]⟩ [1] ["H1"] 1 [.ok (fun _ => constMat 1 1 0)] 1 0 1 1 none "").1 = true ∧
    (generate_and_save_reduced_basis rsvd0 scipy0 id (fun _ _ _ => CC.zero)
      ⟨[0, 1]⟩ [1] ["H1"] 1 [.ok (fun _ => constMat 1 1 0)] 1 0 1 1 none "").2.transform
      = (⟨[0, 1]⟩ : WFD).transform :=
  ⟨rfl, (C7_restore_only_on_normal_return rsvd0 scipy0 id (fun _ _ _ => CC.zero)
      ⟨[0, 1]⟩ [1] ["H1"] 1 [.ok (fun _ => constMat 1 1 0)] 1 0 1 1 none "").1 rfl⟩

/-- Counterexample to C7: a loader failure propagates out of the builder
and the data source is left with the reduced transform, not the original. -/
theorem C7_error_path_skips_restore :
    (generate_and_save_reduced_basis rsvd0 scipy0 id (fun _ _ _ => CC.zero)
        ⟨[0, 1]⟩ [1] ["H1"] 1 [.error .loaderFailure] 2 1 1 2 none "").1
      = .error .loaderFailure ∧
    (generate_and_save_reduced_basis rsvd0 scipy0 id (fun _ _ _ => CC.zero)
        ⟨[0, 1]⟩ [1] ["H1"] 1 [.error .loaderFailure] 2 1 1 2 none "").2.transform
      ≠ (⟨[0, 1]⟩ : WFD).transform := by
  constructor
  · rfl
  · decide

/-- C8 as amended: when the loader is exhausted (full batches only) before
`N_train + N_test` rows are collected, the build proceeds silently: it
returns normally, with only `batches.length * batch_size` of the needed
rows ever written into each per-channel buffer, and raises nothing. -/
theorem C8_exhaustion_is_silent (rsvd : Mat → Nat → Nat → SVDOut)
    (scipySvd : Mat → SVDOut) (sqrt : ℚ → ℚ) (garbage : String → Nat → Nat → CC)
    (wfd : WFD) (omitted : List Nat) (ifos : List String) (M : Nat)
    (batches : List (Except PyErr (String → Mat)))
    (N_train N_test bs n_rb : Nat) (out_dir : Option String) (suffix : String)
    (hb : ∀ b ∈ batches, ∃ f, b = .ok f ∧ ∀ k ∈ ifos, (f k).rows = bs)
    (hlt : batches.length * bs < N_train + N_test) :
    buildIsOk (generate_and_save_reduced_basis rsvd scipySvd sqrt garbage wfd omitted
      ifos M batches N_train N_test bs n_rb out_dir suffix).1 = true ∧
    buildRows (generate_and_save_reduced_basis rsvd scipySvd sqrt garbage wfd omitted
      ifos M batches N_train N_test bs n_rb out_dir suffix).1
      = batches.length * bs ∧
    buildRows (generate_and_save_reduced_basis rsvd scipySvd sqrt garbage wfd omitted
      ifos M batches N_train N_test bs n_rb out_dir suffix).1 < N_train + N_test := by
  obtain ⟨bufs2, hcol⟩ := collectLoop_exhaust ifos bs (N_train + N_test) batches 0
    (fun ifo => ⟨N_train + N_test, M, garbage ifo⟩) hb (by simpa using hlt)
  obtain ⟨l, hfit⟩ := fitAll_ok rsvd scipySvd ifos bufs2 N_train n_rb
  obtain ⟨_, hfull⟩ := fitAll_spec rsvd scipySvd ifos bufs2 N_train n_rb l hfit
  rw [generate_and_save_reduced_basis]
  rw [hcol]
  dsimp only
  rw [hfit]
  dsimp only
  cases out_dir with
  | none =>
      refine ⟨rfl, ?_, ?_⟩
      · show (0 + batches.length) * bs = batches.length * bs
        simp
      · show (0 + batches.length) * bs < N_train + N_test
        simpa using hlt
  | some dir =>
      obtain ⟨t, ht⟩ := testAll_ok sqrt l hfull
        (fun ifo => (bufs2 ifo).dropRows N_train) dir suffix
      dsimp only
      rw [ht]
      dsimp only
      refine ⟨rfl, ?_, ?_⟩
      · show (0 + batches.length) * bs = batches.length * bs
        simp
      · show (0 + batches.length) * bs < N_train + N_test
        simpa using hlt

/-- Witness for C8 as amended: one full 1-row batch against a requested
2 + 1 rows; the build still returns normally. -/
theorem C8_exhaustion_is_silent_witness :
    ((∀ b ∈ [(.ok (fun _ => constMat 1 1 0) : Except PyErr (String → Mat))],
        ∃ f, b = .ok f ∧ ∀ k ∈ ["H1"], (f k).rows = 1) ∧
      [(.ok (fun _ => constMat 1 1 0) : Except PyErr (String → Mat))].length * 1 < 2 + 1) ∧
    buildIsOk (generate_and_save_reduced_basis rsvd0 scipy0 id (fun _ _ _ => CC.zero)
      ⟨[0]⟩ [] ["H1"] 1 [.ok (fun _ => constMat 1 1 0)] 2 1 1 2 none "").1 = true ∧
    buildRows (generate_and_save_reduced_basis rsvd0 scipy0 id (fun _ _ _ => CC.zero)
      ⟨[0]⟩ [] ["H1"] 1 [.ok (fun _ => constMat 1 1 0)] 2 1 1 2 none "").1
      = [(.ok (fun _ => constMat 1 1 0) : Except PyErr (String → Mat))].length * 1 ∧
    buildRows (generate_and_save_reduced_basis rsvd0 scipy0 id (fun _ _ _ => CC.zero)
      ⟨[0]⟩ [] ["H1"] 1 [.ok (fun _ => constMat 1 1 0)] 2 1 1 2 none "").1 < 2 + 1 := by
  have hb : ∀ b ∈ [(.ok (fun _ => constMat 1 1 0) : Except PyErr (String → Mat))],
      ∃ f, b = .ok f ∧ ∀ k ∈ ["H1"], (f k).rows = 1 := by
    intro b hbm
    rw [List.mem_singleton] at hbm
    subst hbm
    exact ⟨_, rfl, fun k _ => rfl⟩
  exact ⟨⟨hb, by decide⟩,
    C8_exhaustion_is_silent rsvd0 scipy0 id (fun _ _ _ => CC.zero)
      ⟨[0]⟩ [] ["H1"] 1 [.ok (fun _ => constMat 1 1 0)] 2 1 1 2 none "" hb (by decide)⟩

/-- Counterexample to C8: with the loader exhausted after a single 1-row
batch against a requested 2 + 1 rows, the build returns normally (no
`InsufficientData`-style failure exists in the code). -/
theorem C8_counterexample :
    buildIsOk (generate_and_save_reduced_basis rsvd0 scipy0 id (fun _ _ _ => CC.zero)
      ⟨[0]⟩ [] ["H1"] 1 [.ok (fun _ => constMat 2 1 0)] 2 1 2 2 none "").1 = true ∧
    buildRows (generate_and_save_reduced_basis rsvd0 scipy0 id (fun _ _ _ => CC.zero)
      ⟨[0]⟩ [] ["H1"] 1 [.ok (fun _ => constMat 2 1 0)] 2 1 2 2 none "").1 = 2 ∧
    (2 : Nat) < 2 + 1 :=
  ⟨rfl, rfl, by decide⟩

/-- C10: with no output directory the build still collects data and fits
one fully populated basis per channel, but writes no files, runs no
validation, and returns an empty path list. -/
theorem C10_no_output_dir (rsvd : Mat → Nat → Nat → SVDOut)
    (scipySvd : Mat → SVDOut) (sqrt : ℚ → ℚ) (garbage : String → Nat → Nat → CC)
    (wfd : WFD) (omitted : List Nat) (ifos : List String) (M : Nat)
    (batches : List (Except PyErr (String → Mat)))
    (N_train N_test bs n_rb : Nat) (suffix : String) :
    buildIsOk (generate_and_save_reduced_basis rsvd scipySvd sqrt garbage wfd omitted
      ifos M batches N_train N_test bs n_rb none suffix).1 = true →
    buildPaths (generate_and_save_reduced_basis rsvd scipySvd sqrt garbage wfd omitted
      ifos M batches N_train N_test bs n_rb none suffix).1 = [] ∧
    buildFiles (generate_and_save_reduced_basis rsvd scipySvd sqrt garbage wfd omitted
      ifos M batches N_train N_test bs n_rb none suffix).1 = [] ∧
    buildTests (generate_and_save_reduced_basis rsvd scipySvd sqrt garbage wfd omitted
      ifos M batches N_train N_test bs n_rb none suffix).1 = [] ∧
    (buildBases (generate_and_save_reduced_basis rsvd scipySvd sqrt garbage wfd omitted
      ifos M batches N_train N_test bs n_rb none suffix).1).map Prod.fst = ifos ∧
    ∀ p ∈ buildBases (generate_and_save_reduced_basis rsvd scipySvd sqrt garbage wfd omitted
      ifos M batches N_train N_test bs n_rb none suffix).1, fullyInit p.2 := by
  rw [generate_and_save_reduced_basis]
  cases hcol : collectLoop ifos bs (N_train + N_test)
      (fun ifo => ⟨N_train + N_test, M, garbage ifo⟩) 0 batches with
  | error e =>
      intro h
      simp [buildIsOk] at h
  | ok pr =>
      obtain ⟨bufs, filled⟩ := pr
      dsimp only
      cases hfit : fitAll rsvd scipySvd ifos bufs N_train n_rb with
      | error e =>
          intro h
          simp [buildIsOk] at h
      | ok l =>
          intro _
          obtain ⟨hmap, hfull⟩ := fitAll_spec rsvd scipySvd ifos bufs N_train n_rb l hfit
          exact ⟨rfl, rfl, rfl, hmap, hfull⟩

/-- Witness for C10: a concrete successful run with no output directory. -/
theorem C10_no_output_dir_witness :
    buildIsOk (generate_and_save_reduced_basis rsvd0 scipy0 id (fun _ _ _ => CC.zero)
      ⟨[0]⟩ [] ["H1"] 1 [.ok (fun _ => constMat 1 1 0)] 1 0 1 1 none "").1 = true ∧
    (buildPaths (generate_and_save_reduced_basis rsvd0 scipy0 id (fun _ _ _ => CC.zero)
        ⟨[0]⟩ [] ["H1"] 1 [.ok (fun _ => constMat 1 1 0)] 1 0 1 1 none "").1 = [] ∧
      buildFiles (generate_and_save_reduced_basis rsvd0 scipy0 id (fun _ _ _ => CC.zero)
        ⟨[0]⟩ [] ["H1"] 1 [.ok (fun _ => constMat 1 1 0)] 1 0 1 1 none "").1 = [] ∧
      buildTests (generate_and_save_reduced_basis rsvd0 scipy0 id (fun _ _ _ => CC.zero)
        ⟨[0]⟩ [] ["H1"] 1 [.ok (fun _ => constMat 1 1 0)] 1 0 1 1 none "").1 = [] ∧
      (buildBases (generate_and_save_reduced_basis rsvd0 scipy0 id (fun _ _ _ => CC.zero)
        ⟨[0]⟩ [] ["H1"] 1 [.ok (fun _ => constMat 1 1 0)] 1 0 1 1 none "").1).map Prod.fst
        = ["H1"] ∧
      ∀ p ∈ buildBases (generate_and_save_reduced_basis rsvd0 scipy0 id (fun _ _ _ => CC.zero)
        ⟨[0]⟩ [] ["H1"] 1 [.ok (fun _ => constMat 1 1 0)] 1 0 1 1 none "").1,
        fullyInit p.2) :=
  ⟨rfl, C10_no_output_dir rsvd0 scipy0 id (fun _ _ _ => CC.zero)
    ⟨[0]⟩ [] ["H1"] 1 [.ok (fun _ => constMat 1 1 0)] 1 0 1 1 "" rfl⟩

end DingoSVD
